import Mathlib

/-!
Shallow embedding of the roadmap-AI orchestration core
(text_processor.py, multi_agent_orchestrator.py, multi_agent_coordinator.py,
specialized_agents.py) and proofs about its specified properties.

Text is modelled as `List Char` (Python `str`).  External LLM calls, the
tiktoken tokenizer and wall-clock timestamps are modelled as parameters:
an LLM-backed agent is a function producing either a value or an error
(Python: returning normally or raising an exception / returning an
error-dict, matching each call site's actual behaviour).
-/

/-! ### Python string primitives -/

/-- Python whitespace recognised by `str.strip()` (ASCII subset, which is all
the embedded code ever produces). -/
def isPySpace (c : Char) : Bool :=
  c = ' ' || c = '\t' || c = '\n' || c = '\r' || c = '\x0b' || c = '\x0c'

/-- Python `s.strip()`. -/
def pyStrip (s : List Char) : List Char :=
  ((s.dropWhile isPySpace).reverse.dropWhile isPySpace).reverse

/-- Python `s.lower()` (ASCII as used by the keyword lists). -/
def pyLower (s : List Char) : List Char :=
  s.map Char.toLower

/-- Python substring test `needle in haystack`. -/
def pyIn (needle : List Char) : List Char → Bool
  | [] => needle.isEmpty
  | c :: t => needle.isPrefixOf (c :: t) || pyIn needle t

/-- Python slice `s[a:b]` for `0 ≤ a`, `0 ≤ b` (with Python's clamping). -/
def pySlice (s : List Char) (a b : Nat) : List Char :=
  (s.take b).drop a

/-- Python `s.split(sep)` for a single-character separator: splits at every
occurrence, keeping empty parts. -/
def pySplitOn (sep : Char) : List Char → List (List Char)
  | [] => [[]]
  | c :: t =>
    if c = sep then [] :: pySplitOn sep t
    else
      match pySplitOn sep t with
      | [] => [[c]]
      | h :: r => (c :: h) :: r

/-- Python `sep.join(parts)`. -/
def joinWith (sep : List Char) : List (List Char) → List Char
  | [] => []
  | [l] => l
  | l :: ls => l ++ sep ++ joinWith sep ls

/-- Python `s.split(sep)` for a multi-character separator (leftmost,
non-overlapping). -/
def pySplitSeq (sep : List Char) (l : List Char) : List (List Char) :=
  match l with
  | [] => [[]]
  | c :: t =>
    if sep.isPrefixOf (c :: t) ∧ sep ≠ [] then
      [] :: pySplitSeq sep (t.drop (sep.length - 1))
    else
      match pySplitSeq sep t with
      | [] => [[c]]
      | h :: r => (c :: h) :: r
termination_by l.length
decreasing_by
  · simp only [List.length_cons, List.length_drop]
    omega
  · simp only [List.length_cons]
    omega

/-- Decimal rendering of a `Nat`, as Python f-string interpolation of an int. -/
def natStr (n : Nat) : List Char :=
  (Nat.repr n).data

/-! ### TextProcessor (text_processor.py)

`TextProcessor` is constructed with its default parameters everywhere in the
repository (`TextProcessor()`), so `chunk_size = 3000` and
`overlap_size = 200` are fixed here, matching `Config.CHUNK_SIZE` /
`Config.OVERLAP_SIZE` as well. -/

def CHUNK_SIZE : Nat := 3000

def OVERLAP_SIZE : Nat := 200

/-- The literal `200` in `search_start = max(end - 200, start)`
("Look for sentence endings within the last 200 characters"). -/
def LOOKBACK : Nat := 200

/-- Embeds `sentence_breaks = ['.', '!', '?', '\n\n']` — a list of Python *strings*.
The last entry has two characters; the membership test below compares it
against one-character strings, exactly as `text[i] in sentence_breaks` does. -/
def sentence_breaks : List (List Char) := [['.'], ['!'], ['?'], ['\n', '\n']]

/-- Python `text[i] in sentence_breaks` (callers guarantee `i < text.length`,
the default is irrelevant there and is not a break character anyway). -/
def isBreakAt (text : List Char) (i : Nat) : Bool :=
  sentence_breaks.contains [text.getD i ' ']

/-- The backward scan `for i in range(end, search_start, -1): if text[i] in
sentence_breaks: best_break = i + 1; break`, returning `some best_break` if a
break was found.  First argument to scan is `i = end`; `lo = search_start`
is excluded, as in Python's `range`. -/
def findBreak (text : List Char) (lo : Nat) : Nat → Option Nat
  | 0 => none
  | n + 1 =>
    if n + 1 ≤ lo then none
    else if isBreakAt text (n + 1) then some (n + 2)
    else findBreak text lo n

/-- The cut position of the window starting at `start`: `end = start +
chunk_size`, adjusted backward to a sentence break when `end < len(text)`
and one is found in the lookback window. -/
def chunkEnd (text : List Char) (start : Nat) : Nat :=
  if start + CHUNK_SIZE < text.length then
    match findBreak text (max (start + CHUNK_SIZE - LOOKBACK) start) (start + CHUNK_SIZE) with
    | some b => b
    | none => start + CHUNK_SIZE
  else start + CHUNK_SIZE

theorem findBreak_le {text : List Char} {lo : Nat} :
    ∀ n b, findBreak text lo n = some b → lo + 2 ≤ b ∧ b ≤ n + 1 := by
  intro n
  induction n with
  | zero => intro b h; simp [findBreak] at h
  | succ n ih =>
    intro b h
    simp only [findBreak] at h
    by_cases h1 : n + 1 ≤ lo
    · simp [h1] at h
    · simp only [h1, if_false] at h
      by_cases h2 : isBreakAt text (n + 1) = true
      · simp [h2] at h
        omega
      · simp [h2] at h
        have := ih b h
        omega

/-- The loop's cut position always lies at least `chunk_size - lookback + 2`
beyond `start`, so the next start (`end - overlap`) strictly advances. -/
theorem chunkEnd_ge (text : List Char) (start : Nat) :
    start + (CHUNK_SIZE - LOOKBACK + 2) ≤ chunkEnd text start := by
  unfold chunkEnd
  split
  · split
    · rename_i b hfb
      have h1 := findBreak_le _ b hfb
      have h2 := Nat.le_max_left (start + CHUNK_SIZE - LOOKBACK) start
      simp only [CHUNK_SIZE, LOOKBACK] at *
      omega
    · simp only [CHUNK_SIZE, LOOKBACK]
      omega
  · simp only [CHUNK_SIZE, LOOKBACK]
    omega

theorem chunkEnd_advance (text : List Char) (start : Nat) :
    start < chunkEnd text start - OVERLAP_SIZE := by
  have := chunkEnd_ge text start
  simp only [CHUNK_SIZE, LOOKBACK, OVERLAP_SIZE] at *
  omega

/-- The `while start < len(text)` loop body of `chunk_text` (for texts longer
than `chunk_size`; the `if start >= len(text): break` at the loop tail
coincides with the loop condition). -/
def chunkLoop (text : List Char) (start : Nat) : List (List Char) :=
  if _h : start < text.length then
    if (pyStrip (pySlice text start (chunkEnd text start))).isEmpty then
      chunkLoop text (chunkEnd text start - OVERLAP_SIZE)
    else
      pyStrip (pySlice text start (chunkEnd text start)) ::
        chunkLoop text (chunkEnd text start - OVERLAP_SIZE)
  else []
termination_by text.length - start
decreasing_by
  · have := chunkEnd_advance text start
    omega
  · have := chunkEnd_advance text start
    omega

/-- Embeds `TextProcessor.chunk_text`. -/
def chunk_text (text : List Char) : List (List Char) :=
  if text.length ≤ CHUNK_SIZE then [text] else chunkLoop text 0

/-- The key-line test of `summarize_chunks` on an already stripped line. -/
def isKeyLine (s : List Char) : Bool :=
  "- ".data.isPrefixOf s || "* ".data.isPrefixOf s ||
  "1.".data.isPrefixOf s || "2.".data.isPrefixOf s || "3.".data.isPrefixOf s ||
  s.length < 100

/-- The `key_lines` collected for one chunk (stripped, non-empty, key lines,
in order). -/
def key_lines (chunk : List Char) : List (List Char) :=
  ((pySplitOn '\n' chunk).map pyStrip).filter fun s => !s.isEmpty && isKeyLine s

/-- One entry of `summary_parts` for chunk index `i` (0-based, labelled
`Section i+1`). -/
def sectionSummary (i : Nat) (chunk : List Char) : List Char :=
  if !(key_lines chunk).isEmpty then
    "Section ".data ++ natStr (i + 1) ++ ":\n".data ++
      joinWith "\n".data ((key_lines chunk).take 5)
  else
    "Section ".data ++ natStr (i + 1) ++ ":\n".data ++
      joinWith ". ".data ((pySplitSeq ". ".data chunk).take 3) ++ ".".data

/-- Embeds `TextProcessor.summarize_chunks`. -/
def summarize_chunks (chunks : List (List Char)) : List Char :=
  if chunks.length ≤ 1 then chunks.headD []
  else joinWith "\n\n".data (chunks.enum.map fun p => sectionSummary p.1 p.2)

/-- Result of `TextProcessor.prepare_input`: the two dict shapes it returns.
`count_tokens` (tiktoken, an external library) is passed in as `ct`. -/
inductive PreparedInput where
  | direct (content : List Char) (token_count : Nat)
  | chunked (original_content : List Char) (chunks : List (List Char))
      (summary : List Char) (token_count : Nat) (chunk_count : Nat)

/-- Embeds `TextProcessor.prepare_input`. -/
def prepare_input (ct : List Char → Nat) (user_input : List Char) : PreparedInput :=
  if ct user_input ≤ 2000 then
    .direct user_input (ct user_input)
  else
    .chunked user_input (chunk_text user_input)
      (summarize_chunks (chunk_text user_input)) (ct user_input)
      (chunk_text user_input).length

/-- Result of `TextProcessor.process_input` (the orchestrator-facing shape;
for chunked inputs `content` is the summary). -/
inductive ProcessedInput where
  | direct (content : List Char) (token_count : Nat)
  | chunked (content : List Char) (chunks : List (List Char))
      (token_count : Nat) (chunk_count : Nat)

/-- Embeds `TextProcessor.process_input`. -/
def process_input (ct : List Char → Nat) (user_input : List Char) : ProcessedInput :=
  match prepare_input ct user_input with
  | .direct c tc => .direct c tc
  | .chunked _ chunks summary tc cc => .chunked summary chunks tc cc

/-- Accessor for `processed_input['content']` (present in both shapes). -/
def processedContent : ProcessedInput → List Char
  | .direct c _ => c
  | .chunked c _ _ _ => c

/-- Accessor for `processed_input['token_count']`. -/
def processedTokenCount : ProcessedInput → Nat
  | .direct _ tc => tc
  | .chunked _ _ tc _ => tc

/-- Accessor for `prepared['token_count']` of a `prepare_input` result. -/
def preparedTokenCount : PreparedInput → Nat
  | .direct _ tc => tc
  | .chunked _ _ _ tc _ => tc

/-! ### Project classifier (multi_agent_orchestrator.py) -/

def ai_keywords : List (List Char) :=
  ["ai agent", "multi-agent", "market research", "ai system",
   "machine learning", "automated research", "ai team",
   "intelligent system", "data analysis", "market intelligence",
   "business intelligence", "opportunity identification",
   "trend analysis", "competitive intelligence", "search all projects",
   "study different industries", "identify problems", "solutions",
   "market potential", "daily idea", "unbeatable", "profit",
   "internet search", "analyze market", "product launch"].map String.data

def strong_ai_terms : List (List Char) :=
  ["ai agent", "ai system", "ai team", "multi-agent"].map String.data

def research_terms : List (List Char) :=
  ["research", "analysis", "study", "identify", "search"].map String.data

def market_terms : List (List Char) :=
  ["market", "industry", "profit", "product", "business"].map String.data

/-- Embeds `MultiAgentOrchestrator._is_complex_ai_project`. -/
def is_complex_ai_project (user_input : List Char) : Bool :=
  let user_lower := pyLower user_input
  let keyword_matches := ai_keywords.countP fun k => pyIn k user_lower
  let has_ai_terms := strong_ai_terms.any fun t => pyIn t user_lower
  let has_research_terms := research_terms.any fun t => pyIn t user_lower
  let has_market_terms := market_terms.any fun t => pyIn t user_lower
  (has_ai_terms && (has_research_terms || has_market_terms)) || keyword_matches ≥ 5

def iot_keywords : List (List Char) :=
  ["iot", "esp32", "arduino", "raspberry pi", "sensor", "microcontroller",
   "smart home", "automation", "monitoring", "control system",
   "aquarium", "greenhouse", "weather station", "security system",
   "temperature sensor", "ph sensor", "ultrasonic", "relay",
   "wifi module", "bluetooth", "mqtt", "cloud integration"].map String.data

def strong_iot_terms : List (List Char) :=
  ["iot", "esp32", "arduino", "sensor", "smart"].map String.data

def hardware_bool_terms : List (List Char) :=
  ["components", "pricing", "wiring", "setup"].map String.data

def monitoring_terms : List (List Char) :=
  ["monitoring", "control", "tracking", "automation"].map String.data

/-- Embeds `MultiAgentOrchestrator._is_iot_hardware_project` (the `hardware_matches`
count over the 9-term `hardware_terms` list is computed in the source but
only logged, so it does not appear in the return value). -/
def is_iot_hardware_project (user_input : List Char) : Bool :=
  let user_lower := pyLower user_input
  let iot_matches := iot_keywords.countP fun k => pyIn k user_lower
  let has_iot_terms := strong_iot_terms.any fun t => pyIn t user_lower
  let has_hardware_terms := hardware_bool_terms.any fun t => pyIn t user_lower
  let has_monitoring_terms := monitoring_terms.any fun t => pyIn t user_lower
  (has_iot_terms && (has_hardware_terms || has_monitoring_terms)) || iot_matches ≥ 3

/-! ### Refinement-loop orchestrator (multi_agent_orchestrator.py)

Errors (`raise`/`except`) are modelled with `Except Err`.  The ISO timestamp
of a step record and the wall-clock `processing_time` come from the real-time
clock and are not modelled; every other field of a step record is. -/

/-- Error payload (`str(e)`). -/
abbrev Err := List Char

/-- One entry of `workflow_history` as built by `_log_workflow_step`. -/
structure StepRecord where
  iteration : Nat
  step_type : List Char
  content_length : Nat
  content_preview : List Char
deriving DecidableEq

/-- Mutable orchestrator state touched by the workflow: `current_iteration`
and the instance-level, never-cleared `workflow_history` list. -/
structure OrchState where
  current_iteration : Nat
  workflow_history : List StepRecord
deriving DecidableEq

/-- The four LLM-backed calls of the refinement loop
(`StrategistAgent.generate_initial_roadmap`, `RefinerAgent.analyze_roadmap`,
`StrategistAgent.refine_roadmap`, `RefinerAgent.final_evaluation`).  Each
either returns text or raises (`Except.error`), as in llm_agents.py. -/
structure LLMAgents where
  generate_initial_roadmap : List Char → Except Err (List Char)
  analyze_roadmap : List Char → Nat → Except Err (List Char)
  refine_roadmap : List Char → List Char → Except Err (List Char)
  final_evaluation : List Char → Except Err (List Char)

/-- The step preview: `content[:200] + "..."` when the content is longer
than 200 characters, else the content itself. -/
def stepPreview (content : List Char) : List Char :=
  if content.length > 200 then content.take 200 ++ "...".data else content

/-- Embeds `_log_workflow_step`: append one record to the instance-level history. -/
def log_workflow_step (st : OrchState) (step_type : List Char)
    (content : List Char) : OrchState :=
  { st with
    workflow_history := st.workflow_history ++
      [{ iteration := st.current_iteration
         step_type := step_type
         content_length := content.length
         content_preview := stepPreview content }] }

/-- The prepared-input dict handed to `_execute_workflow`. -/
inductive PreparedWF where
  | direct (content : List Char)
  | chunked (summary : List Char) (chunk_count : Nat) (token_count : Nat)

/-- The strategist input computed at the top of `_execute_workflow`. -/
def strategistInput : PreparedWF → List Char
  | .direct c => c
  | .chunked summary chunk_count token_count =>
      "Project Requirements Summary:\n".data ++ summary ++
      "\n\nNote: This is a summary of a larger document with ".data ++
      natStr chunk_count ++ " sections totaling ".data ++
      natStr token_count ++ " tokens.".data

/-- Step names and iteration bumps of `_execute_workflow`, in order. -/
def stepNames : List (List Char) :=
  ["strategist_initial", "refiner_feedback_1", "strategist_refined",
   "refiner_final"].map String.data

/-- The exception wrapper of `_execute_workflow`'s `except` clause. -/
def refinementError (e : Err) : Err :=
  "Multi-agent refinement failed: ".data ++ e

/-- Response metadata: the workflow variant records `iterations` and the
(shared, instance-level) `workflow_history`; the coordinator variant records
`agents_used` and per-agent `confidence_scores`. -/
inductive Metadata where
  | workflow (iterations : Nat) (workflow_history : List StepRecord)
  | coordinator (agents_used : List (List Char))
      (confidence_scores : List (List Char × ℚ))
deriving DecidableEq

/-- The `{roadmap, metadata}` envelope. -/
structure RoadmapResult where
  roadmap : List Char
  metadata : Metadata
deriving DecidableEq

/-- Embeds `MultiAgentOrchestrator._execute_workflow`.  Python mutates
`self.current_iteration` / `self.workflow_history` in place and raises on
failure; here the updated state is returned alongside the result, with the
state as mutated up to the failing step. -/
def execute_workflow (A : LLMAgents) (st0 : OrchState) (pi : PreparedWF) :
    Except Err RoadmapResult × OrchState :=
  let input := strategistInput pi
  let st1 : OrchState := { st0 with current_iteration := 1 }
  match A.generate_initial_roadmap input with
  | .error e => (.error (refinementError e), st1)
  | .ok initial_roadmap =>
    let st2 := log_workflow_step st1 "strategist_initial".data initial_roadmap
    match A.analyze_roadmap initial_roadmap 1 with
    | .error e => (.error (refinementError e), st2)
    | .ok refiner_feedback_1 =>
      let st3 := log_workflow_step st2 "refiner_feedback_1".data refiner_feedback_1
      let st4 : OrchState := { st3 with current_iteration := 2 }
      match A.refine_roadmap initial_roadmap refiner_feedback_1 with
      | .error e => (.error (refinementError e), st4)
      | .ok refined_roadmap =>
        let st5 := log_workflow_step st4 "strategist_refined".data refined_roadmap
        let st6 : OrchState := { st5 with current_iteration := 3 }
        match A.final_evaluation refined_roadmap with
        | .error e => (.error (refinementError e), st6)
        | .ok final_roadmap =>
          let st7 := log_workflow_step st6 "refiner_final".data final_roadmap
          (.ok { roadmap := final_roadmap
                 metadata := .workflow st7.current_iteration st7.workflow_history },
           st7)

/-- Embeds `_process_direct_input`. -/
def process_direct_input (A : LLMAgents) (st : OrchState) (content : List Char) :
    Except Err RoadmapResult × OrchState :=
  execute_workflow A st (.direct content)

/-- The prepared-input dict built by `_process_chunked_input`: note that its
`token_count` is recomputed as the **sum of per-chunk token counts**, not
taken from `prepare_input`'s original-text count. -/
def chunkedPrepared (ct : List Char → Nat) (chunks : List (List Char)) : PreparedWF :=
  .chunked (summarize_chunks chunks) chunks.length ((chunks.map ct).sum)

/-- Embeds `_process_chunked_input`. -/
def process_chunked_input (A : LLMAgents) (ct : List Char → Nat) (st : OrchState)
    (chunks : List (List Char)) : Except Err RoadmapResult × OrchState :=
  execute_workflow A st (chunkedPrepared ct chunks)

/-- The chunked prepared-input's `token_count` field. -/
def preparedWFTokenCount : PreparedWF → Option Nat
  | .direct _ => none
  | .chunked _ _ tc => some tc

/-- Embeds `MultiAgentOrchestrator._process_complex_ai_project`.  The coordinator
call (`analyze_complex_project`) is the `coord` parameter; on its failure the
except-branch re-processes the input and runs the refinement loop on
`processed_input['content']`.  A failure of that fallback propagates (the
except clause has no further handler).  `analyze_complex_project` always
returns both a `roadmap` and a `metadata` key, so the format-normalization
branch at lines 217-227 passes its result through unchanged. -/
def process_complex_ai_project (coord : List Char → Except Err RoadmapResult)
    (A : LLMAgents) (ct : List Char → Nat) (st : OrchState) (user_input : List Char) :
    Except Err RoadmapResult × OrchState :=
  match coord user_input with
  | .ok result => (.ok result, st)
  | .error _ =>
    process_direct_input A st (processedContent (process_input ct user_input))

/-- Embeds `_process_iot_hardware_project`, which has the same try/except structure around
the IoT coordinator. -/
def process_iot_hardware_project (coordIoT : List Char → Except Err RoadmapResult)
    (A : LLMAgents) (ct : List Char → Nat) (st : OrchState) (user_input : List Char) :
    Except Err RoadmapResult × OrchState :=
  match coordIoT user_input with
  | .ok result => (.ok result, st)
  | .error _ =>
    process_direct_input A st (processedContent (process_input ct user_input))

/-- Embeds `MultiAgentOrchestrator.process_project_request`: preprocess, then
dispatch on the two classifier checks in their fixed order, else run the
refinement loop on the direct content or the chunks. -/
def process_project_request (coord coordIoT : List Char → Except Err RoadmapResult)
    (A : LLMAgents) (ct : List Char → Nat) (st : OrchState) (user_input : List Char) :
    Except Err RoadmapResult × OrchState :=
  let processed_input := process_input ct user_input
  if is_complex_ai_project user_input then
    process_complex_ai_project coord A ct st user_input
  else if is_iot_hardware_project user_input then
    process_iot_hardware_project coordIoT A ct st user_input
  else
    match processed_input with
    | .direct content _ => process_direct_input A st content
    | .chunked _ chunks _ _ => process_chunked_input A ct st chunks

/-! ### Multi-agent synthesis coordinator (multi_agent_coordinator.py,
specialized_agents.py)

Each specialist agent catches its own exceptions and returns either its
success dict — which always carries exactly its content key (`analysis`,
`architecture`, `ai_design`, `strategy` or `implementation_plan`), an
`agent_type` tag and a `confidence` float — or a dict whose only key is
`error`.  `AgentResult.ok` / `AgentResult.err` model those two shapes;
confidence floats are carried as rationals (they are only stored and compared,
never computed with).  Because a failing stage returns an error dict instead
of raising, the coordinator's own try/except is not triggered by stage
failures and every phase runs. -/

inductive AgentResult where
  | ok (content : List Char) (agent_type : List Char) (confidence : ℚ)
  | err (msg : List Char)
deriving DecidableEq

/-- Embeds `result.get(content_key, '')`: the stage's content key is present exactly
on the success shape. -/
def getContent : AgentResult → List Char
  | .ok c _ _ => c
  | .err _ => []

/-- Embeds `'error' in result`. -/
def isErr : AgentResult → Bool
  | .ok _ _ _ => false
  | .err _ => true

/-- Embeds `result.get('confidence', 0.0)`. -/
def getConfidence : AgentResult → ℚ
  | .ok _ _ conf => conf
  | .err _ => 0

/-- The five specialist-agent calls, in pipeline order, with the inputs each
one receives in `analyze_complex_project`. -/
structure SpecialistAgents where
  analyze_market_opportunity : List Char → AgentResult
  design_system_architecture : List Char → List Char → AgentResult
  design_ai_models : List Char → List Char → AgentResult
  develop_business_strategy : List Char → List Char → List Char → AgentResult
  create_implementation_plan :
    AgentResult → AgentResult → AgentResult → AgentResult → AgentResult

/-- Embeds `self.analysis_results` after the five phases (insertion order
`market_research, technical_architect, ai_specialist, business_strategy,
implementation`). -/
structure AnalysisResults where
  market_research : AgentResult
  technical_architect : AgentResult
  ai_specialist : AgentResult
  business_strategy : AgentResult
  implementation : AgentResult
deriving DecidableEq

/-- Phases 1-5 of `analyze_complex_project`: each downstream stage consumes
`get`-defaulted content of the upstream results; the implementation agent
receives the whole results dict. -/
def analysisResultsOf (A : SpecialistAgents) (desc : List Char) : AnalysisResults :=
  let market_result := A.analyze_market_opportunity desc
  let tech_result := A.design_system_architecture desc (getContent market_result)
  let ai_result := A.design_ai_models desc (getContent tech_result)
  let business_result :=
    A.develop_business_strategy desc (getContent market_result) (getContent tech_result)
  let implementation_result :=
    A.create_implementation_plan market_result tech_result ai_result business_result
  ⟨market_result, tech_result, ai_result, business_result, implementation_result⟩

def agentNames : List (List Char) :=
  ["market_research", "technical_architect", "ai_specialist",
   "business_strategy", "implementation"].map String.data

/-- Embeds `_get_confidence_scores`: iterates `analysis_results` in insertion order,
defaulting missing confidence (the error shape) to `0.0`. -/
def confidence_scores (r : AnalysisResults) : List (List Char × ℚ) :=
  [("market_research".data, getConfidence r.market_research),
   ("technical_architect".data, getConfidence r.technical_architect),
   ("ai_specialist".data, getConfidence r.ai_specialist),
   ("business_strategy".data, getConfidence r.business_strategy),
   ("implementation".data, getConfidence r.implementation)]

/-- One line of `_format_section_content` after stripping, for non-blank
lines (the `section_type` argument of the source function is never used). -/
def format_line (line : List Char) : List Char :=
  if "####".data.isPrefixOf line then "### ".data ++ pyStrip (line.drop 4)
  else if "###".data.isPrefixOf line then "### ".data ++ pyStrip (line.drop 3)
  else if "##".data.isPrefixOf line then "### ".data ++ pyStrip (line.drop 2)
  else if "#".data.isPrefixOf line then "### ".data ++ pyStrip (line.drop 1)
  else if "- ".data.isPrefixOf line || "* ".data.isPrefixOf line then line
  else if line.getLastD ' ' = ':' && line.length < 100 then
    "**".data ++ line ++ "**".data
  else line

/-- Embeds `_format_section_content`. -/
def format_section_content (content : List Char) : List Char :=
  if content.isEmpty then content
  else
    joinWith "\n".data ((pySplitOn '\n' content).map fun l =>
      if (pyStrip l).isEmpty then [] else format_line (pyStrip l))

def marketHeading : List Char := "## 📊 Market Opportunity Analysis".data

def techHeading : List Char := "## 🏗️ Technical Architecture & System Design".data

def aiHeading : List Char := "## 🤖 AI/ML Models & Algorithms".data

def businessHeading : List Char := "## 💼 Business Strategy & Monetization".data

def implHeading : List Char := "## 🎯 Implementation Plan & Execution".data

/-- Lines 113-119 of `_synthesize_comprehensive_roadmap` (static prologue). -/
def synthHeader : List (List Char) :=
  ["# 🚀 AI Market Research System: Comprehensive Project Roadmap".data,
   [],
   "## 📋 Executive Summary".data,
   ("This roadmap presents a **comprehensive plan** for developing an advanced AI-powered market research system with specialized multi-agent architecture for identifying untapped market opportunities and generating profitable business ideas.").data,
   [],
   "---".data,
   []]

/-- The market section is appended only when the stored result carries the
`analysis` key, i.e. is the success shape. -/
def marketBlock : AgentResult → List (List Char)
  | .ok c _ _ =>
    [marketHeading, [], format_section_content c, [], "---".data, []]
  | .err _ => []

def techBlock : AgentResult → List (List Char)
  | .ok c _ _ =>
    [techHeading, [], format_section_content c, [], "---".data, []]
  | .err _ => []

def aiBlock : AgentResult → List (List Char)
  | .ok c _ _ =>
    [aiHeading, [], format_section_content c, [], "---".data, []]
  | .err _ => []

/-- The business section appends one extra blank line (source lines 170-173). -/
def businessBlock : AgentResult → List (List Char)
  | .ok c _ _ =>
    [businessHeading, [], format_section_content c, [], "---".data, [], []]
  | .err _ => []

def implBlock : AgentResult → List (List Char)
  | .ok c _ _ =>
    [implHeading, [], format_section_content c, [], "---".data, []]
  | .err _ => []

/-- Lines 189-236 of `_synthesize_comprehensive_roadmap` (static epilogue). -/
def synthFooter : List (List Char) :=
  ["## 🤖 Multi-Agent System Architecture Summary".data,
   [],
   "### 🎯 **Specialized Agent Roles:**".data,
   [],
   "| Agent | Primary Function | Key Capabilities |".data,
   "|-------|------------------|------------------|".data,
   "| 📊 **Market Research Agent** | Market Intelligence | Scans global markets, identifies trends, analyzes gaps |".data,
   "| 🏗️ **Technical Architect Agent** | System Design | Designs scalable architecture and infrastructure |".data,
   "| 🤖 **AI Specialist Agent** | ML/AI Development | Develops and optimizes machine learning models |".data,
   "| 💼 **Business Strategy Agent** | Strategic Planning | Creates monetization and go-to-market strategies |".data,
   "| 🎯 **Implementation Agent** | Project Execution | Coordinates development, deployment, and operations |".data,
   [],
   "### 🔄 **Agent Coordination Workflow:**".data,
   [],
   "```mermaid".data,
   "graph TD".data,
   "    A[Daily Market Scanning] --> B[Data Analysis & Processing]".data,
   "    B --> C[Opportunity Identification]".data,
   "    C --> D[Feasibility Assessment]".data,
   "    D --> E[Business Validation]".data,
   "    E --> F[Idea Generation & Ranking]".data,
   "    F --> G[Implementation Planning]".data,
   "    G --> H[Continuous Learning Loop]".data,
   "    H --> A".data,
   "```".data,
   [],
   "### 📈 **Success Metrics & KPIs:**".data,
   [],
   "| Metric Category | Key Indicators | Target Performance |".data,
   "|-----------------|----------------|-------------------|".data,
   "| 💡 **Idea Quality** | Market potential, uniqueness, feasibility scores | 8.5+ out of 10 |".data,
   "| 🚀 **Implementation Success** | Conversion rate from idea to profitable product | 60%+ success rate |".data,
   "| 🎯 **Market Accuracy** | Prediction accuracy for trends and opportunities | 85%+ accuracy |".data,
   "| 💰 **Revenue Generation** | ROI from implemented ideas and products | $10M+ ARR target |".data,
   [],
   "---".data,
   [],
   "## 🎉 **Project Completion Summary**".data,
   [],
   ("This comprehensive roadmap provides a **complete blueprint** for building a sophisticated AI-driven market research and opportunity identification system. The multi-agent architecture ensures:").data,
   [],
   "✅ **Comprehensive Analysis** across all business domains".data,
   "✅ **Scalable Architecture** for enterprise-grade deployment".data,
   "✅ **Advanced AI/ML Models** for accurate predictions".data,
   "✅ **Profitable Business Model** with multiple revenue streams".data,
   "✅ **Clear Implementation Path** with defined milestones".data,
   [],
   "**Ready for implementation with high potential for market success!** 🚀".data]

/-- The `roadmap_sections` list built by `_synthesize_comprehensive_roadmap`. -/
def synthSections (r : AnalysisResults) : List (List Char) :=
  synthHeader ++ marketBlock r.market_research ++ techBlock r.technical_architect ++
    aiBlock r.ai_specialist ++ businessBlock r.business_strategy ++
    implBlock r.implementation ++ synthFooter

/-- Embeds `_synthesize_comprehensive_roadmap` = `"\n".join(roadmap_sections)`. -/
def synthesize_comprehensive_roadmap (r : AnalysisResults) : List Char :=
  joinWith "\n".data (synthSections r)

/-- Embeds `MultiAgentCoordinator.analyze_complex_project` (processing time,
timestamp and the `str(dict)`-based `total_tokens` estimate are real-time /
repr artefacts and are not modelled; `agent_analyses` is `analysisResultsOf`
itself). -/
def analyze_complex_project (A : SpecialistAgents) (desc : List Char) : RoadmapResult :=
  { roadmap := synthesize_comprehensive_roadmap (analysisResultsOf A desc)
    metadata := .coordinator agentNames (confidence_scores (analysisResultsOf A desc)) }

/-! Stage enumeration used to state per-stage properties. -/

inductive Stage where
  | market_research | technical_architect | ai_specialist
  | business_strategy | implementation
deriving DecidableEq

def stages : List Stage :=
  [.market_research, .technical_architect, .ai_specialist,
   .business_strategy, .implementation]

def stageResult (r : AnalysisResults) : Stage → AgentResult
  | .market_research => r.market_research
  | .technical_architect => r.technical_architect
  | .ai_specialist => r.ai_specialist
  | .business_strategy => r.business_strategy
  | .implementation => r.implementation

def stageName : Stage → List Char
  | .market_research => "market_research".data
  | .technical_architect => "technical_architect".data
  | .ai_specialist => "ai_specialist".data
  | .business_strategy => "business_strategy".data
  | .implementation => "implementation".data

def stageHeading : Stage → List Char
  | .market_research => marketHeading
  | .technical_architect => techHeading
  | .ai_specialist => aiHeading
  | .business_strategy => businessHeading
  | .implementation => implHeading

/-- Number of failed stages in a results dict. -/
def countErrs (r : AnalysisResults) : Nat :=
  stages.countP fun s => isErr (stageResult r s)

/-! ### Concrete instances used by witnesses -/

/-- Refinement-loop agents whose four calls all succeed with fixed outputs. -/
def okAgents : LLMAgents where
  generate_initial_roadmap := fun _ => .ok "draft".data
  analyze_roadmap := fun _ _ => .ok "feedback".data
  refine_roadmap := fun _ _ => .ok "revised".data
  final_evaluation := fun _ => .ok "final".data

/-- Refinement-loop agents whose first call raises. -/
def errAgents : LLMAgents where
  generate_initial_roadmap := fun _ => .error "llm down".data
  analyze_roadmap := fun _ _ => .error "x".data
  refine_roadmap := fun _ _ => .error "x".data
  final_evaluation := fun _ => .error "x".data

/-- A constant stand-in tokenizer. -/
def constTok (n : Nat) : List Char → Nat := fun _ => n

/-- A coordinator call that raises. -/
def failingCoord : List Char → Except Err RoadmapResult :=
  fun _ => .error "coordinator boom".data

/-! ### Claims about the text preprocessor -/

/-- C8: for every text whose approximate token count is at most 2000,
`prepare_input` returns mode `direct` with content exactly the input text. -/
theorem c8_direct_mode_identity (ct : List Char → Nat) (text : List Char)
    (h : ct text ≤ 2000) :
    prepare_input ct text = .direct text (ct text) := by
  simp [prepare_input, h]

theorem c8_witness :
    constTok 7 "build a todo app".data ≤ 2000 ∧
      prepare_input (constTok 7) "build a todo app".data =
        .direct "build a todo app".data (constTok 7 "build a todo app".data) :=
  ⟨by decide, c8_direct_mode_identity (constTok 7) "build a todo app".data (by decide)⟩

/-- C9: for every non-empty text of length at most `chunk_size` (3000),
`summarize_chunks (chunk_text text) = text`: `chunk_text` yields the single
chunk `[text]` and `summarize_chunks` short-circuits on one chunk. -/
theorem c9_chunk_summarize_round_trip (text : List Char) (_hne : text ≠ [])
    (hlen : text.length ≤ CHUNK_SIZE) :
    chunk_text text = [text] ∧ summarize_chunks (chunk_text text) = text := by
  have hct : chunk_text text = [text] := by
    unfold chunk_text
    rw [if_pos hlen]
  refine ⟨hct, ?_⟩
  rw [hct]
  simp [summarize_chunks]

theorem c9_witness :
    ("hello. world".data ≠ [] ∧ "hello. world".data.length ≤ CHUNK_SIZE) ∧
      (chunk_text "hello. world".data = ["hello. world".data] ∧
        summarize_chunks (chunk_text "hello. world".data) = "hello. world".data) :=
  ⟨⟨by decide, by decide⟩,
   c9_chunk_summarize_round_trip "hello. world".data (by decide) (by decide)⟩

/-! ### Claims about the classifier and routing -/

/-- The complex-AI classification property exactly as the spec words it:
(some strong-AI phrase occurs in the lowercased input) AND (some
research/analysis term occurs OR some market/business term occurs), OR the
number of broader complex-AI keywords that occur is at least 5. -/
def complexAISpec (u : List Char) : Prop :=
  ((∃ t ∈ strong_ai_terms, pyIn t (pyLower u) = true) ∧
    ((∃ t ∈ research_terms, pyIn t (pyLower u) = true) ∨
      (∃ t ∈ market_terms, pyIn t (pyLower u) = true))) ∨
  5 ≤ (ai_keywords.filter fun k => pyIn k (pyLower u)).length

/-- C5: `_is_complex_ai_project` agrees with the spec's formula for every
input string. -/
theorem c5_complex_ai_classifier_iff (u : List Char) :
    is_complex_ai_project u = true ↔ complexAISpec u := by
  unfold is_complex_ai_project complexAISpec
  rw [← List.countP_eq_length_filter]
  simp [List.any_eq_true, decide_eq_true_iff]

/-- C3: when both classifier heuristics are true the request is dispatched to
the generic complex-AI synthesis pipeline (the complex-AI check runs first
and wins); when neither is true it goes to the refinement loop on the
direct content or the chunks. -/
theorem c3_routing_precedence (coord coordIoT : List Char → Except Err RoadmapResult)
    (A : LLMAgents) (ct : List Char → Nat) (st : OrchState) (u v : List Char)
    (hcu : is_complex_ai_project u = true)
    (_hiu : is_iot_hardware_project u = true)
    (hcv : is_complex_ai_project v = false)
    (hiv : is_iot_hardware_project v = false) :
    process_project_request coord coordIoT A ct st u =
      process_complex_ai_project coord A ct st u ∧
    process_project_request coord coordIoT A ct st v =
      (match process_input ct v with
       | .direct content _ => process_direct_input A st content
       | .chunked _ chunks _ _ => process_chunked_input A ct st chunks) := by
  constructor
  · simp [process_project_request, hcu]
  · simp [process_project_request, hcv, hiv]

theorem c3_witness :
    (is_complex_ai_project "ai agent research iot sensor components".data = true ∧
     is_iot_hardware_project "ai agent research iot sensor components".data = true ∧
     is_complex_ai_project "hello world".data = false ∧
     is_iot_hardware_project "hello world".data = false) ∧
    (process_project_request failingCoord failingCoord okAgents (constTok 3) ⟨0, []⟩
        "ai agent research iot sensor components".data =
      process_complex_ai_project failingCoord okAgents (constTok 3) ⟨0, []⟩
        "ai agent research iot sensor components".data ∧
     process_project_request failingCoord failingCoord okAgents (constTok 3) ⟨0, []⟩
        "hello world".data =
      (match process_input (constTok 3) "hello world".data with
       | .direct content _ => process_direct_input okAgents ⟨0, []⟩ content
       | .chunked _ chunks _ _ =>
           process_chunked_input okAgents (constTok 3) ⟨0, []⟩ chunks)) :=
  ⟨⟨by decide, by decide, by decide, by decide⟩,
   c3_routing_precedence failingCoord failingCoord okAgents (constTok 3) ⟨0, []⟩
     "ai agent research iot sensor components".data "hello world".data
     (by decide) (by decide) (by decide) (by decide)⟩

/-- C4: if the synthesis-pipeline coordinator call raises, the router runs
the refinement loop on the preprocessed input's content and returns that
result; if that refinement-loop fallback itself fails, its error is the
result — no further fallback exists. -/
theorem c4_synthesis_fallback (coord : List Char → Except Err RoadmapResult)
    (A : LLMAgents) (ct : List Char → Nat) (st : OrchState) (u : List Char)
    (e : Err) (h : coord u = .error e) :
    process_complex_ai_project coord A ct st u =
      process_direct_input A st (processedContent (process_input ct u)) ∧
    ∀ e2, (process_direct_input A st (processedContent (process_input ct u))).1 =
        .error e2 →
      (process_complex_ai_project coord A ct st u).1 = .error e2 := by
  constructor
  · simp [process_complex_ai_project, h]
  · intro e2 h2
    simp [process_complex_ai_project, h, h2]

theorem c4_witness :
    failingCoord "x".data = .error "coordinator boom".data ∧
    process_complex_ai_project failingCoord errAgents (constTok 3) ⟨0, []⟩ "x".data =
      process_direct_input errAgents ⟨0, []⟩
        (processedContent (process_input (constTok 3) "x".data)) ∧
    (process_complex_ai_project failingCoord errAgents (constTok 3) ⟨0, []⟩
        "x".data).1 = .error (refinementError "llm down".data) := by
  refine ⟨rfl, ?_, ?_⟩
  · exact (c4_synthesis_fallback failingCoord errAgents (constTok 3) ⟨0, []⟩
      "x".data "coordinator boom".data rfl).1
  · exact (c4_synthesis_fallback failingCoord errAgents (constTok 3) ⟨0, []⟩
      "x".data "coordinator boom".data rfl).2 (refinementError "llm down".data) rfl

/-! ### Evaluation lemmas for the chunking loop -/

theorem getD_default_or_mem (text : List Char) (i : Nat) (d : Char) :
    text.getD i d = d ∨ text.getD i d ∈ text := by
  rw [List.getD_eq_getElem?_getD]
  cases hx : text[i]? with
  | none => left; rfl
  | some a =>
    right
    have hlt : i < text.length := by
      by_contra hge
      rw [List.getElem?_eq_none (by omega)] at hx
      exact Option.noConfusion hx
    have := List.getElem_mem hlt
    rw [List.getElem?_eq_getElem hlt] at hx
    simp only [Option.some.injEq] at hx
    simpa [hx] using this

theorem isBreakAt_true {text : List Char} {i : Nat} (h : isBreakAt text i = true) :
    text.getD i ' ' = '.' ∨ text.getD i ' ' = '!' ∨ text.getD i ' ' = '?' := by
  unfold isBreakAt at h
  have h2 := List.elem_iff.1 h
  simp only [sentence_breaks, List.mem_cons, List.cons.injEq, List.not_mem_nil,
    and_true, or_false] at h2
  rcases h2 with h2 | h2 | h2 | h2
  · exact Or.inl h2
  · exact Or.inr (Or.inl h2)
  · exact Or.inr (Or.inr h2)
  · exact absurd h2 (by simp)

theorem noBreakAt {text : List Char}
    (hc : ∀ c ∈ text, c ≠ '.' ∧ c ≠ '!' ∧ c ≠ '?') (i : Nat) :
    isBreakAt text i = false := by
  cases hb : isBreakAt text i with
  | false => rfl
  | true =>
    exfalso
    rcases getD_default_or_mem text i ' ' with hd | hd
    · rcases isBreakAt_true hb with h | h | h <;> rw [hd] at h <;> exact absurd h (by decide)
    · have := hc _ hd
      rcases isBreakAt_true hb with h | h | h
      · exact this.1 h
      · exact this.2.1 h
      · exact this.2.2 h

theorem findBreak_none {text : List Char} (h : ∀ i, isBreakAt text i = false)
    (lo : Nat) : ∀ n, findBreak text lo n = none := by
  intro n
  induction n with
  | zero => rfl
  | succ n ih => simp [findBreak, h, ih]

theorem chunkEnd_noBreak {text : List Char} (h : ∀ i, isBreakAt text i = false)
    (start : Nat) : chunkEnd text start = start + CHUNK_SIZE := by
  unfold chunkEnd
  rw [findBreak_none h]
  split <;> rfl

theorem chunkLoop_stop {text : List Char} {start : Nat} (h : text.length ≤ start) :
    chunkLoop text start = [] := by
  unfold chunkLoop
  rw [dif_neg (by omega)]

theorem chunkLoop_step (start : Nat) {text : List Char}
    (hnb : ∀ i, isBreakAt text i = false) (hlt : start < text.length)
    (hne : (pyStrip (pySlice text start (start + CHUNK_SIZE))).isEmpty = false) :
    chunkLoop text start =
      pyStrip (pySlice text start (start + CHUNK_SIZE)) ::
        chunkLoop text (start + CHUNK_SIZE - OVERLAP_SIZE) := by
  conv_lhs => rw [chunkLoop]
  rw [dif_pos hlt, chunkEnd_noBreak hnb, hne]
  simp only [Bool.false_eq_true, if_false]

theorem dropWhile_head_false {p : Char → Bool} :
    ∀ {l : List Char} {c : Char}, (List.dropWhile p l).head? = some c → p c = false := by
  intro l
  induction l with
  | nil => intro c h; simp [List.dropWhile] at h
  | cons a t ih =>
    intro c h
    rw [List.dropWhile_cons] at h
    by_cases hp : p a = true
    · rw [if_pos hp] at h
      exact ih h
    · rw [if_neg hp] at h
      simp only [List.head?_cons, Option.some.injEq] at h
      rw [← h]
      simpa using hp

theorem dropWhile_eq_self_of_head {p : Char → Bool} {l : List Char}
    (h : ∀ c, l.head? = some c → p c = false) : List.dropWhile p l = l := by
  cases l with
  | nil => rfl
  | cons a t =>
    rw [List.dropWhile_cons, if_neg]
    simp [h a rfl]

theorem pyStrip_eq_self {l : List Char}
    (h1 : ∀ c, l.head? = some c → isPySpace c = false)
    (h2 : ∀ c, l.getLast? = some c → isPySpace c = false) :
    pyStrip l = l := by
  unfold pyStrip
  rw [dropWhile_eq_self_of_head h1]
  rw [dropWhile_eq_self_of_head fun c hc => h2 c (by rwa [List.head?_reverse] at hc)]
  exact List.reverse_reverse l

theorem pyStrip_idem (l : List Char) : pyStrip (pyStrip l) = pyStrip l := by
  apply pyStrip_eq_self
  · intro c hc
    unfold pyStrip at hc
    rw [List.head?_reverse] at hc
    have hBne : (List.dropWhile isPySpace
        (List.dropWhile isPySpace l).reverse) ≠ [] := by
      intro hnil
      rw [hnil] at hc
      exact Option.noConfusion hc
    have hsuf : List.dropWhile isPySpace (List.dropWhile isPySpace l).reverse <:+
        (List.dropWhile isPySpace l).reverse := List.dropWhile_suffix isPySpace
    obtain ⟨t, ht⟩ := hsuf
    have h3 := List.getLast?_append_of_ne_nil t hBne
    rw [ht, List.getLast?_reverse] at h3
    rw [← h3] at hc
    exact dropWhile_head_false hc
  · intro c hc
    unfold pyStrip at hc
    rw [List.getLast?_reverse] at hc
    exact dropWhile_head_false hc

/-- Every chunk emitted by the chunking loop is strip-fixed and non-empty
(only `if chunk:` guarded, stripped chunks are ever appended). -/
theorem chunkLoop_mem (text : List Char) :
    ∀ n start, text.length - start ≤ n →
      ∀ c ∈ chunkLoop text start, pyStrip c = c ∧ c ≠ [] := by
  intro n
  induction n with
  | zero =>
    intro start h c hc
    rw [chunkLoop_stop (by omega)] at hc
    exact absurd hc (List.not_mem_nil c)
  | succ n ih =>
    intro start h c hc
    by_cases hlt : start < text.length
    · have hadv := chunkEnd_advance text start
      rw [chunkLoop] at hc
      rw [dif_pos hlt] at hc
      split at hc
      · exact ih _ (by omega) c hc
      · rename_i hne
        rcases List.mem_cons.1 hc with rfl | hmem
        · refine ⟨pyStrip_idem _, ?_⟩
          intro hnil
          rw [hnil] at hne
          exact hne rfl
        · exact ih _ (by omega) c hmem
    · rw [chunkLoop_stop (by omega)] at hc
      exact absurd hc (List.not_mem_nil c)

theorem head?_replicate_succ_append (n : Nat) (c : Char) (l : List Char) :
    (List.replicate (n + 1) c ++ l).head? = some c := by
  rw [List.replicate_succ]
  rfl

theorem getLast?_append_replicate_succ (l : List Char) (n : Nat) (c : Char) :
    (l ++ List.replicate (n + 1) c).getLast? = some c := by
  rw [List.getLast?_append_of_ne_nil _ (by simp)]
  rw [List.replicate_succ' n c, List.getLast?_concat]

theorem pyStrip_replicate (n : Nat) (c : Char) (hc : isPySpace c = false) :
    pyStrip (List.replicate n c) = List.replicate n c := by
  cases n with
  | zero => rfl
  | succ m =>
    apply pyStrip_eq_self
    · intro d hd
      rw [show List.replicate (m + 1) c = List.replicate (m + 1) c ++ [] by simp,
        head?_replicate_succ_append] at hd
      simp only [Option.some.injEq] at hd
      rwa [← hd]
    · intro d hd
      rw [show List.replicate (m + 1) c = [] ++ List.replicate (m + 1) c by simp,
        getLast?_append_replicate_succ] at hd
      simp only [Option.some.injEq] at hd
      rwa [← hd]

theorem noBreak_replicate_a : ∀ i, isBreakAt (List.replicate 3001 'a') i = false := by
  apply noBreakAt
  intro c hc
  rw [List.eq_of_mem_replicate hc]
  refine ⟨by decide, by decide, by decide⟩

/-- Concrete evaluation: 3001 copies of `'a'` (no sentence breaks anywhere)
chunk into a 3000-character window and a 201-character tail that re-includes
the 200-character overlap. -/
theorem chunk_text_replicate3001 :
    chunk_text (List.replicate 3001 'a') =
      [List.replicate 3000 'a', List.replicate 201 'a'] := by
  have hlen : (List.replicate 3001 'a').length = 3001 := List.length_replicate 3001 'a'
  have hs1 : pySlice (List.replicate 3001 'a') 0 (0 + CHUNK_SIZE) =
      List.replicate 3000 'a' := by
    unfold pySlice CHUNK_SIZE
    rw [List.take_replicate]
    norm_num
  have hs2 : pySlice (List.replicate 3001 'a') 2800 (2800 + CHUNK_SIZE) =
      List.replicate 201 'a' := by
    unfold pySlice CHUNK_SIZE
    rw [List.take_replicate, List.drop_replicate]
    norm_num
  have hstep1 := chunkLoop_step 0 noBreak_replicate_a
    (by rw [hlen]; norm_num)
    (by rw [hs1, pyStrip_replicate _ _ (by decide),
          show (3000 : Nat) = 2999 + 1 from rfl, List.replicate_succ]; rfl)
  have hstep2 := chunkLoop_step 2800 noBreak_replicate_a
    (by rw [hlen]; norm_num)
    (by rw [hs2, pyStrip_replicate _ _ (by decide),
          show (201 : Nat) = 200 + 1 from rfl, List.replicate_succ]; rfl)
  unfold chunk_text
  rw [if_neg (by rw [hlen]; norm_num [CHUNK_SIZE])]
  rw [hstep1, hs1, pyStrip_replicate _ _ (by decide)]
  rw [show 0 + CHUNK_SIZE - OVERLAP_SIZE = 2800 by norm_num [CHUNK_SIZE, OVERLAP_SIZE]]
  rw [hstep2, hs2, pyStrip_replicate _ _ (by decide)]
  rw [show 2800 + CHUNK_SIZE - OVERLAP_SIZE = 5600 by norm_num [CHUNK_SIZE, OVERLAP_SIZE]]
  rw [chunkLoop_stop (by rw [hlen]; norm_num)]

/-! ### C10: chunking termination and chunk shape -/

/-- C10 (amended): the chunking loop strictly advances its start position at
every iteration (`next start = cut - overlap > start`), so `chunk_text`
terminates on every input; every chunk produced by the loop — i.e. whenever
the text is longer than `chunk_size` — is strip-fixed and non-empty; for
texts of length at most `chunk_size` the result is the single unstripped
chunk `[text]`, which may be empty or whitespace-only. -/
theorem c10_chunk_termination (text : List Char) (start : Nat) :
    start < chunkEnd text start - OVERLAP_SIZE ∧
    (CHUNK_SIZE < text.length → ∀ c ∈ chunk_text text, pyStrip c = c ∧ c ≠ []) ∧
    (text.length ≤ CHUNK_SIZE → chunk_text text = [text]) := by
  refine ⟨chunkEnd_advance text start, ?_, ?_⟩
  · intro hlen c hc
    unfold chunk_text at hc
    rw [if_neg (by omega)] at hc
    exact chunkLoop_mem text text.length 0 (by omega) c hc
  · intro hlen
    unfold chunk_text
    rw [if_pos hlen]

/-- C10 counterexample: on the non-empty input `" "` the short-input branch
returns `[" "]` unstripped, a chunk that is empty after stripping, so "every
chunk in the returned list is non-empty after stripping" fails as a statement
about every input. -/
theorem c10_counterexample :
    chunk_text " ".data = [" ".data] ∧ pyStrip " ".data = [] :=
  ⟨rfl, rfl⟩

theorem c10_witness :
    0 < chunkEnd (List.replicate 3001 'a') 0 - OVERLAP_SIZE ∧
    CHUNK_SIZE < (List.replicate 3001 'a').length ∧
    (∀ c ∈ chunk_text (List.replicate 3001 'a'), pyStrip c = c ∧ c ≠ []) := by
  refine ⟨(c10_chunk_termination (List.replicate 3001 'a') 0).1,
    by rw [List.length_replicate]; norm_num [CHUNK_SIZE], ?_⟩
  exact (c10_chunk_termination (List.replicate 3001 'a') 0).2.1
    (by rw [List.length_replicate]; norm_num [CHUNK_SIZE])

/-! ### C6: token count surfaced for chunked inputs -/

/-- C6 (amended): for chunked-mode inputs the text processor's
`prepare_input`/`process_input` do report the original text's token count,
but the prepared input built by the orchestrator's `_process_chunked_input`
— the one whose token count is surfaced downstream in the strategist prompt
— carries the **sum of per-chunk token counts** instead. -/
theorem c6_token_count_chunked (ct : List Char → Nat) (u : List Char)
    (h : 2000 < ct u) :
    preparedTokenCount (prepare_input ct u) = ct u ∧
    processedTokenCount (process_input ct u) = ct u ∧
    preparedWFTokenCount (chunkedPrepared ct (chunk_text u)) =
      some ((chunk_text u).map ct).sum := by
  have h2 : ¬ ct u ≤ 2000 := by omega
  refine ⟨?_, ?_, rfl⟩
  · unfold prepare_input
    rw [if_neg h2]
    rfl
  · unfold process_input prepare_input
    rw [if_neg h2]
    rfl

/-- C6 counterexample: with the tokenizer modelled as `List.length` (tiktoken
is external; any fixed tokenizer instantiates the model), the 3001-character
input of `'a'`s is chunked into overlapping chunks of 3000 and 201
characters, so the downstream-surfaced token count is 3201, not the original
3001. -/
theorem c6_counterexample :
    2000 < List.length (List.replicate 3001 'a') ∧
    List.length (List.replicate 3001 'a') = 3001 ∧
    preparedWFTokenCount
        (chunkedPrepared List.length (chunk_text (List.replicate 3001 'a'))) =
      some 3201 ∧
    (3201 : Nat) ≠ 3001 := by
  refine ⟨by rw [List.length_replicate]; norm_num, List.length_replicate _ _, ?_,
    by norm_num⟩
  rw [chunk_text_replicate3001]
  unfold chunkedPrepared preparedWFTokenCount
  simp only [List.map_cons, List.map_nil, List.length_replicate, Option.some.injEq]
  norm_num

theorem c6_witness :
    2000 < constTok 2001 "hi".data ∧
    (preparedTokenCount (prepare_input (constTok 2001) "hi".data) =
        constTok 2001 "hi".data ∧
      processedTokenCount (process_input (constTok 2001) "hi".data) =
        constTok 2001 "hi".data ∧
      preparedWFTokenCount (chunkedPrepared (constTok 2001) (chunk_text "hi".data)) =
        some ((chunk_text "hi".data).map (constTok 2001)).sum) :=
  ⟨by decide, c6_token_count_chunked (constTok 2001) "hi".data (by decide)⟩

/-! ### C7: sentence/paragraph break selection -/

/-- Text of 2900 `'a'`s, a blank-line paragraph break, then 300 `'b'`s: the break sits
at positions 2900-2901, inside the 200-character lookback window
(2801..3000) of the first chunk, and there is no `.`/`!`/`?` anywhere. -/
def pdText : List Char :=
  List.replicate 2900 'a' ++ '\n' :: '\n' :: List.replicate 300 'b'

theorem pdText_length : pdText.length = 3202 := by
  simp only [pdText, List.length_append, List.length_cons, List.length_replicate]

theorem pdText_noBreak : ∀ i, isBreakAt pdText i = false := by
  apply noBreakAt
  intro c hc
  simp only [pdText, List.mem_append, List.mem_cons, List.mem_replicate] at hc
  rcases hc with ⟨_, rfl⟩ | rfl | rfl | ⟨_, rfl⟩
  · exact ⟨by decide, by decide, by decide⟩
  · exact ⟨by decide, by decide, by decide⟩
  · exact ⟨by decide, by decide, by decide⟩
  · exact ⟨by decide, by decide, by decide⟩

theorem pdText_slice1 : pySlice pdText 0 (0 + CHUNK_SIZE) =
    List.replicate 2900 'a' ++ '\n' :: '\n' :: List.replicate 98 'b' := by
  unfold pySlice CHUNK_SIZE pdText
  rw [Nat.zero_add, List.take_append_eq_append_take, List.length_replicate,
    List.take_replicate, List.drop_zero]
  norm_num

theorem pdText_slice2 : pySlice pdText 2800 (2800 + CHUNK_SIZE) =
    List.replicate 100 'a' ++ '\n' :: '\n' :: List.replicate 300 'b' := by
  unfold pySlice CHUNK_SIZE
  rw [List.take_of_length_le (by rw [pdText_length]; norm_num)]
  unfold pdText
  rw [List.drop_append_eq_append_drop, List.length_replicate, List.drop_replicate]
  norm_num

theorem strip_a_nl_b (m n k : Nat) :
    pyStrip (List.replicate (m + 1) 'a' ++ '\n' :: '\n' :: List.replicate (n + 1) 'b') =
      List.replicate (m + 1) 'a' ++ '\n' :: '\n' :: List.replicate (n + 1) 'b' ∧
    (List.replicate (m + 1) 'a' ++ '\n' :: '\n' ::
        List.replicate (n + 1) 'b').isEmpty = false ∧ k = k := by
  refine ⟨?_, ?_, rfl⟩
  · apply pyStrip_eq_self
    · intro d hd
      rw [head?_replicate_succ_append] at hd
      simp only [Option.some.injEq] at hd
      rw [← hd]
      decide
    · intro d hd
      rw [show ('\n' :: '\n' :: List.replicate (n + 1) 'b' : List Char) =
          ['\n', '\n'] ++ List.replicate (n + 1) 'b' from rfl,
        ← List.append_assoc, getLast?_append_replicate_succ] at hd
      simp only [Option.some.injEq] at hd
      rw [← hd]
      decide
  · rw [List.replicate_succ]
    rfl

/-- C7: evaluation of `chunk_text` at `pdText`.  The first chunk is cut at
the raw window boundary 3000 — it runs 98 characters past the blank-line
paragraph break — even though that break lies inside the lookback window
(last conjunct: positions 2900-2901 hold the `"\n\n"`), because the source
compares single characters against the two-character string `'\n\n'`, which
never matches. -/
theorem c7_paragraph_break_ignored :
    chunk_text pdText =
      [List.replicate 2900 'a' ++ '\n' :: '\n' :: List.replicate 98 'b',
       List.replicate 100 'a' ++ '\n' :: '\n' :: List.replicate 300 'b'] ∧
    (chunk_text pdText).map List.length = [3000, 402] ∧
    pySlice pdText 2900 2902 = ['\n', '\n'] := by
  have hst1 := strip_a_nl_b 2899 97 0
  have hst2 := strip_a_nl_b 99 299 0
  have hchunks : chunk_text pdText =
      [List.replicate 2900 'a' ++ '\n' :: '\n' :: List.replicate 98 'b',
       List.replicate 100 'a' ++ '\n' :: '\n' :: List.replicate 300 'b'] := by
    have hstep1 := chunkLoop_step 0 pdText_noBreak
      (by rw [pdText_length]; norm_num)
      (by rw [pdText_slice1]
          rw [show (2900 : Nat) = 2899 + 1 from rfl, show (98 : Nat) = 97 + 1 from rfl]
          rw [hst1.1]
          exact hst1.2.1)
    have hstep2 := chunkLoop_step 2800 pdText_noBreak
      (by rw [pdText_length]; norm_num)
      (by rw [pdText_slice2]
          rw [show (100 : Nat) = 99 + 1 from rfl, show (300 : Nat) = 299 + 1 from rfl]
          rw [hst2.1]
          exact hst2.2.1)
    unfold chunk_text
    rw [if_neg (by rw [pdText_length]; norm_num [CHUNK_SIZE])]
    rw [hstep1, pdText_slice1,
      show (2900 : Nat) = 2899 + 1 from rfl, show (98 : Nat) = 97 + 1 from rfl,
      hst1.1,
      show 0 + CHUNK_SIZE - OVERLAP_SIZE = 2800 by norm_num [CHUNK_SIZE, OVERLAP_SIZE]]
    rw [hstep2, pdText_slice2,
      show (100 : Nat) = 99 + 1 from rfl, show (300 : Nat) = 299 + 1 from rfl,
      hst2.1,
      show 2800 + CHUNK_SIZE - OVERLAP_SIZE = 5600 by norm_num [CHUNK_SIZE, OVERLAP_SIZE]]
    rw [chunkLoop_stop (by rw [pdText_length]; norm_num)]
  refine ⟨hchunks, ?_, ?_⟩
  · rw [hchunks]
    simp only [List.map_cons, List.map_nil, List.length_append, List.length_cons,
      List.length_replicate]
  · unfold pySlice pdText
    rw [List.take_append_eq_append_take, List.length_replicate,
      List.take_replicate]
    norm_num

/-! ### C1: partial-failure tolerance of the synthesis pipeline

The synthesized document contains a stage's section exactly when that
stage's result carries its content key.  "Contains the section" is read at
the granularity the source builds the document with: membership of the
stage's heading line in the `roadmap_sections` list that is then joined with
newlines.  The lemmas below show a formatted content block can never collide
with a `"## "` heading element, so heading membership faithfully tracks
section presence even for adversarial agent output. -/

theorem pySplitOn_ne_nil (sep : Char) : ∀ l, pySplitOn sep l ≠ [] := by
  intro l
  cases l with
  | nil => simp [pySplitOn]
  | cons c t =>
    unfold pySplitOn
    by_cases h : c = sep
    · simp [h]
    · rw [if_neg h]
      cases hp : pySplitOn sep t with
      | nil => simp
      | cons a r => simp

theorem joinWith_sep_mem {x : Char} {sep : List Char} (hx : x ∈ sep)
    (a b : List Char) (ls : List (List Char)) :
    x ∈ joinWith sep (a :: b :: ls) := by
  simp [joinWith, hx]

/-- No output of `format_line` is a line of the form `"## …"`: heading-marker
inputs are normalized to `"### …"` and everything else keeps a non-`#` first
character. -/
theorem format_line_ne (s t : List Char) :
    format_line s ≠ '#' :: '#' :: ' ' :: t := by
  unfold format_line
  split_ifs with h1 h2 h3 h4 h5 h6 <;> intro he
  · rw [show ("### ".data ++ pyStrip (s.drop 4) : List Char) =
        '#' :: '#' :: '#' :: ' ' :: pyStrip (s.drop 4) from rfl] at he
    simp at he
  · rw [show ("### ".data ++ pyStrip (s.drop 3) : List Char) =
        '#' :: '#' :: '#' :: ' ' :: pyStrip (s.drop 3) from rfl] at he
    simp at he
  · rw [show ("### ".data ++ pyStrip (s.drop 2) : List Char) =
        '#' :: '#' :: '#' :: ' ' :: pyStrip (s.drop 2) from rfl] at he
    simp at he
  · rw [show ("### ".data ++ pyStrip (s.drop 1) : List Char) =
        '#' :: '#' :: '#' :: ' ' :: pyStrip (s.drop 1) from rfl] at he
    simp at he
  · rw [he] at h5
    have e1 : (("- ".data : List Char).isPrefixOf ('#' :: '#' :: ' ' :: t)) = false := rfl
    have e2 : (("* ".data : List Char).isPrefixOf ('#' :: '#' :: ' ' :: t)) = false := rfl
    rw [e1, e2] at h5
    simp at h5
  · rw [show ("**".data ++ s ++ "**".data : List Char) =
        '*' :: '*' :: (s ++ "**".data) from rfl] at he
    simp at he
  · exact h4 (by rw [he]; rfl)

/-- No `format_section_content` output equals a `"## …"` heading line that
itself contains no newline: a multi-line result contains `'\n'`, and a
single-line result is a `format_line` output. -/
theorem format_section_ne_heading (c t : List Char) (hnl : ('\n' : Char) ∉ t) :
    format_section_content c ≠ '#' :: '#' :: ' ' :: t := by
  unfold format_section_content
  split_ifs with hemp
  · intro he
    rw [List.isEmpty_iff.1 hemp] at he
    exact List.noConfusion he
  · intro he
    cases hsp : pySplitOn '\n' c with
    | nil => exact pySplitOn_ne_nil '\n' c hsp
    | cons p rest =>
      cases rest with
      | nil =>
        rw [hsp] at he
        simp only [List.map_cons, List.map_nil] at he
        rw [show joinWith "\n".data
              [if (pyStrip p).isEmpty = true then [] else format_line (pyStrip p)] =
            (if (pyStrip p).isEmpty = true then [] else format_line (pyStrip p))
            from rfl] at he
        by_cases hspe : (pyStrip p).isEmpty = true
        · rw [if_pos hspe] at he
          exact List.noConfusion he
        · rw [if_neg hspe] at he
          exact format_line_ne (pyStrip p) t he
      | cons q rest2 =>
        rw [hsp] at he
        simp only [List.map_cons] at he
        have hmem : ('\n' : Char) ∈ joinWith "\n".data
            ((if (pyStrip p).isEmpty = true then [] else format_line (pyStrip p)) ::
              (if (pyStrip q).isEmpty = true then [] else format_line (pyStrip q)) ::
              rest2.map fun l =>
                if (pyStrip l).isEmpty = true then [] else format_line (pyStrip l)) :=
          joinWith_sep_mem (by decide) _ _ _
        rw [he] at hmem
        simp only [List.mem_cons] at hmem
        rcases hmem with h | h | h | h
        · exact absurd h (by decide)
        · exact absurd h (by decide)
        · exact absurd h (by decide)
        · exact hnl h

theorem heading_notMem_sixList (t : List Char) (hnl : ('\n' : Char) ∉ t)
    (bh c : List Char) (hne : ('#' :: '#' :: ' ' :: t : List Char) ≠ bh) :
    ('#' :: '#' :: ' ' :: t : List Char) ∉
      ([bh, [], format_section_content c, [], "---".data, []] : List (List Char)) := by
  intro hmem
  simp only [List.mem_cons, List.not_mem_nil, or_false] at hmem
  rcases hmem with h | h | h | h | h | h
  · exact hne h
  · exact List.noConfusion h
  · exact format_section_ne_heading c t hnl h.symm
  · exact List.noConfusion h
  · simp at h
  · exact List.noConfusion h

theorem heading_notMem_sevenList (t : List Char) (hnl : ('\n' : Char) ∉ t)
    (bh c : List Char) (hne : ('#' :: '#' :: ' ' :: t : List Char) ≠ bh) :
    ('#' :: '#' :: ' ' :: t : List Char) ∉
      ([bh, [], format_section_content c, [], "---".data, [], []] :
        List (List Char)) := by
  intro hmem
  simp only [List.mem_cons, List.not_mem_nil, or_false] at hmem
  rcases hmem with h | h | h | h | h | h | h
  · exact hne h
  · exact List.noConfusion h
  · exact format_section_ne_heading c t hnl h.symm
  · exact List.noConfusion h
  · simp at h
  · exact List.noConfusion h
  · exact List.noConfusion h

theorem heading_notMem_marketBlock (t : List Char) (hnl : ('\n' : Char) ∉ t)
    (hne : ('#' :: '#' :: ' ' :: t : List Char) ≠ marketHeading)
    (res : AgentResult) :
    ('#' :: '#' :: ' ' :: t : List Char) ∉ marketBlock res := by
  cases res with
  | err m => simp [marketBlock]
  | ok c ty conf => exact heading_notMem_sixList t hnl marketHeading c hne

theorem heading_notMem_techBlock (t : List Char) (hnl : ('\n' : Char) ∉ t)
    (hne : ('#' :: '#' :: ' ' :: t : List Char) ≠ techHeading)
    (res : AgentResult) :
    ('#' :: '#' :: ' ' :: t : List Char) ∉ techBlock res := by
  cases res with
  | err m => simp [techBlock]
  | ok c ty conf => exact heading_notMem_sixList t hnl techHeading c hne

theorem heading_notMem_aiBlock (t : List Char) (hnl : ('\n' : Char) ∉ t)
    (hne : ('#' :: '#' :: ' ' :: t : List Char) ≠ aiHeading)
    (res : AgentResult) :
    ('#' :: '#' :: ' ' :: t : List Char) ∉ aiBlock res := by
  cases res with
  | err m => simp [aiBlock]
  | ok c ty conf => exact heading_notMem_sixList t hnl aiHeading c hne

theorem heading_notMem_businessBlock (t : List Char) (hnl : ('\n' : Char) ∉ t)
    (hne : ('#' :: '#' :: ' ' :: t : List Char) ≠ businessHeading)
    (res : AgentResult) :
    ('#' :: '#' :: ' ' :: t : List Char) ∉ businessBlock res := by
  cases res with
  | err m => simp [businessBlock]
  | ok c ty conf => exact heading_notMem_sevenList t hnl businessHeading c hne

theorem heading_notMem_implBlock (t : List Char) (hnl : ('\n' : Char) ∉ t)
    (hne : ('#' :: '#' :: ' ' :: t : List Char) ≠ implHeading)
    (res : AgentResult) :
    ('#' :: '#' :: ' ' :: t : List Char) ∉ implBlock res := by
  cases res with
  | err m => simp [implBlock]
  | ok c ty conf => exact heading_notMem_sixList t hnl implHeading c hne

theorem marketHeading_eq :
    marketHeading = '#' :: '#' :: ' ' :: "📊 Market Opportunity Analysis".data := rfl

theorem techHeading_eq :
    techHeading =
      '#' :: '#' :: ' ' :: "🏗️ Technical Architecture & System Design".data := rfl

theorem aiHeading_eq :
    aiHeading = '#' :: '#' :: ' ' :: "🤖 AI/ML Models & Algorithms".data := rfl

theorem businessHeading_eq :
    businessHeading =
      '#' :: '#' :: ' ' :: "💼 Business Strategy & Monetization".data := rfl

theorem implHeading_eq :
    implHeading =
      '#' :: '#' :: ' ' :: "🎯 Implementation Plan & Execution".data := rfl

/-- A successful stage's heading line is an element of the synthesized
section list. -/
theorem heading_mem_of_ok (r : AnalysisResults) (s : Stage)
    (hok : isErr (stageResult r s) = false) :
    stageHeading s ∈ synthSections r := by
  cases s with
  | market_research =>
    cases hr : r.market_research with
    | err m => simp only [stageResult] at hok; rw [hr] at hok; simp [isErr] at hok
    | ok c ty conf =>
      simp only [stageHeading, synthSections]
      rw [hr]
      simp [marketBlock, List.mem_append, List.mem_cons]
  | technical_architect =>
    cases hr : r.technical_architect with
    | err m => simp only [stageResult] at hok; rw [hr] at hok; simp [isErr] at hok
    | ok c ty conf =>
      simp only [stageHeading, synthSections]
      rw [hr]
      simp [techBlock, List.mem_append, List.mem_cons]
  | ai_specialist =>
    cases hr : r.ai_specialist with
    | err m => simp only [stageResult] at hok; rw [hr] at hok; simp [isErr] at hok
    | ok c ty conf =>
      simp only [stageHeading, synthSections]
      rw [hr]
      simp [aiBlock, List.mem_append, List.mem_cons]
  | business_strategy =>
    cases hr : r.business_strategy with
    | err m => simp only [stageResult] at hok; rw [hr] at hok; simp [isErr] at hok
    | ok c ty conf =>
      simp only [stageHeading, synthSections]
      rw [hr]
      simp [businessBlock, List.mem_append, List.mem_cons]
  | implementation =>
    cases hr : r.implementation with
    | err m => simp only [stageResult] at hok; rw [hr] at hok; simp [isErr] at hok
    | ok c ty conf =>
      simp only [stageHeading, synthSections]
      rw [hr]
      simp [implBlock, List.mem_append, List.mem_cons]

theorem notMem_synthSections (hd : List Char) (r : AnalysisResults)
    (h0 : hd ∉ synthHeader) (h1 : hd ∉ marketBlock r.market_research)
    (h2 : hd ∉ techBlock r.technical_architect)
    (h3 : hd ∉ aiBlock r.ai_specialist)
    (h4 : hd ∉ businessBlock r.business_strategy)
    (h5 : hd ∉ implBlock r.implementation)
    (h6 : hd ∉ synthFooter) : hd ∉ synthSections r := by
  unfold synthSections
  intro hmem
  rcases List.mem_append.1 hmem with hmem | h
  · rcases List.mem_append.1 hmem with hmem | h
    · rcases List.mem_append.1 hmem with hmem | h
      · rcases List.mem_append.1 hmem with hmem | h
        · rcases List.mem_append.1 hmem with hmem | h
          · rcases List.mem_append.1 hmem with h | h
            · exact h0 h
            · exact h1 h
          · exact h2 h
        · exact h3 h
      · exact h4 h
    · exact h5 h
  · exact h6 h

/-- A failed stage's heading line never appears in the synthesized section
list: its own block is omitted, and no static line or other stage's
(possibly adversarial) formatted content can equal it. -/
theorem heading_notMem_of_err (r : AnalysisResults) (s : Stage)
    (herr : isErr (stageResult r s) = true) :
    stageHeading s ∉ synthSections r := by
  cases s with
  | market_research =>
    cases hr : r.market_research with
    | ok c ty conf => simp only [stageResult] at herr; rw [hr] at herr; simp [isErr] at herr
    | err m =>
      simp only [stageHeading]
      rw [marketHeading_eq]
      exact notMem_synthSections _ r (by decide)
        (by rw [hr]; simp [marketBlock])
        (heading_notMem_techBlock _ (by decide) (by decide) _)
        (heading_notMem_aiBlock _ (by decide) (by decide) _)
        (heading_notMem_businessBlock _ (by decide) (by decide) _)
        (heading_notMem_implBlock _ (by decide) (by decide) _)
        (by decide)
  | technical_architect =>
    cases hr : r.technical_architect with
    | ok c ty conf => simp only [stageResult] at herr; rw [hr] at herr; simp [isErr] at herr
    | err m =>
      simp only [stageHeading]
      rw [techHeading_eq]
      exact notMem_synthSections _ r (by decide)
        (heading_notMem_marketBlock _ (by decide) (by decide) _)
        (by rw [hr]; simp [techBlock])
        (heading_notMem_aiBlock _ (by decide) (by decide) _)
        (heading_notMem_businessBlock _ (by decide) (by decide) _)
        (heading_notMem_implBlock _ (by decide) (by decide) _)
        (by decide)
  | ai_specialist =>
    cases hr : r.ai_specialist with
    | ok c ty conf => simp only [stageResult] at herr; rw [hr] at herr; simp [isErr] at herr
    | err m =>
      simp only [stageHeading]
      rw [aiHeading_eq]
      exact notMem_synthSections _ r (by decide)
        (heading_notMem_marketBlock _ (by decide) (by decide) _)
        (heading_notMem_techBlock _ (by decide) (by decide) _)
        (by rw [hr]; simp [aiBlock])
        (heading_notMem_businessBlock _ (by decide) (by decide) _)
        (heading_notMem_implBlock _ (by decide) (by decide) _)
        (by decide)
  | business_strategy =>
    cases hr : r.business_strategy with
    | ok c ty conf => simp only [stageResult] at herr; rw [hr] at herr; simp [isErr] at herr
    | err m =>
      simp only [stageHeading]
      rw [businessHeading_eq]
      exact notMem_synthSections _ r (by decide)
        (heading_notMem_marketBlock _ (by decide) (by decide) _)
        (heading_notMem_techBlock _ (by decide) (by decide) _)
        (heading_notMem_aiBlock _ (by decide) (by decide) _)
        (by rw [hr]; simp [businessBlock])
        (heading_notMem_implBlock _ (by decide) (by decide) _)
        (by decide)
  | implementation =>
    cases hr : r.implementation with
    | ok c ty conf => simp only [stageResult] at herr; rw [hr] at herr; simp [isErr] at herr
    | err m =>
      simp only [stageHeading]
      rw [implHeading_eq]
      exact notMem_synthSections _ r (by decide)
        (heading_notMem_marketBlock _ (by decide) (by decide) _)
        (heading_notMem_techBlock _ (by decide) (by decide) _)
        (heading_notMem_aiBlock _ (by decide) (by decide) _)
        (heading_notMem_businessBlock _ (by decide) (by decide) _)
        (by rw [hr]; simp [implBlock])
        (by decide)

/-- The confidence map always carries the five agent keys, in insertion
order. -/
theorem conf_keys (r : AnalysisResults) :
    (confidence_scores r).map Prod.fst = agentNames := rfl

/-- A failed stage contributes confidence `0.0` (the `get` default). -/
theorem conf_zero_of_err (r : AnalysisResults) (s : Stage)
    (herr : isErr (stageResult r s) = true) :
    (stageName s, (0 : ℚ)) ∈ confidence_scores r := by
  cases s with
  | market_research =>
    cases hr : r.market_research with
    | ok c ty conf => simp only [stageResult] at herr; rw [hr] at herr; simp [isErr] at herr
    | err m =>
      simp only [stageName, confidence_scores]
      rw [hr]
      simp [getConfidence]
  | technical_architect =>
    cases hr : r.technical_architect with
    | ok c ty conf => simp only [stageResult] at herr; rw [hr] at herr; simp [isErr] at herr
    | err m =>
      simp only [stageName, confidence_scores]
      rw [hr]
      simp [getConfidence]
  | ai_specialist =>
    cases hr : r.ai_specialist with
    | ok c ty conf => simp only [stageResult] at herr; rw [hr] at herr; simp [isErr] at herr
    | err m =>
      simp only [stageName, confidence_scores]
      rw [hr]
      simp [getConfidence]
  | business_strategy =>
    cases hr : r.business_strategy with
    | ok c ty conf => simp only [stageResult] at herr; rw [hr] at herr; simp [isErr] at herr
    | err m =>
      simp only [stageName, confidence_scores]
      rw [hr]
      simp [getConfidence]
  | implementation =>
    cases hr : r.implementation with
    | ok c ty conf => simp only [stageResult] at herr; rw [hr] at herr; simp [isErr] at herr
    | err m =>
      simp only [stageName, confidence_scores]
      rw [hr]
      simp [getConfidence]

/-- C1: in a run of the synthesis pipeline where exactly one of the five
stages fails (its agent returns an error-keyed result), the pipeline does
not abort — all five results are recorded — the synthesized section list
contains the heading of every successful stage and omits the failed stage's
heading, the metadata confidence map carries all five agent keys with the
failed agent's confidence equal to 0.0, and the returned document is the
newline-join of those sections.  (The conclusions are proved for any
success/failure pattern; the hypothesis fixes the claim's scope.) -/
theorem c1_synthesis_partial_failure (A : SpecialistAgents) (desc : List Char)
    (_h : countErrs (analysisResultsOf A desc) = 1) :
    (∀ s : Stage, isErr (stageResult (analysisResultsOf A desc) s) = false →
      stageHeading s ∈ synthSections (analysisResultsOf A desc)) ∧
    (∀ s : Stage, isErr (stageResult (analysisResultsOf A desc) s) = true →
      stageHeading s ∉ synthSections (analysisResultsOf A desc)) ∧
    (confidence_scores (analysisResultsOf A desc)).map Prod.fst = agentNames ∧
    (∀ s : Stage, isErr (stageResult (analysisResultsOf A desc) s) = true →
      (stageName s, (0 : ℚ)) ∈ confidence_scores (analysisResultsOf A desc)) ∧
    analyze_complex_project A desc =
      { roadmap := joinWith "\n".data (synthSections (analysisResultsOf A desc))
        metadata := .coordinator agentNames
          (confidence_scores (analysisResultsOf A desc)) } :=
  ⟨fun s => heading_mem_of_ok _ s, fun s => heading_notMem_of_err _ s,
   conf_keys _, fun s => conf_zero_of_err _ s, rfl⟩

/-- Five concrete agents of which exactly the AI specialist fails. -/
def oneFailAgents : SpecialistAgents where
  analyze_market_opportunity := fun _ =>
    .ok "market stuff".data "market_research".data (85 / 100 : ℚ)
  design_system_architecture := fun _ _ =>
    .ok "tech stuff".data "technical_architect".data (90 / 100 : ℚ)
  design_ai_models := fun _ _ => .err "AI Specialist Agent error: boom".data
  develop_business_strategy := fun _ _ _ =>
    .ok "business stuff".data "business_strategy".data (87 / 100 : ℚ)
  create_implementation_plan := fun _ _ _ _ =>
    .ok "impl stuff".data "implementation".data (92 / 100 : ℚ)

theorem c1_witness :
    countErrs (analysisResultsOf oneFailAgents "project".data) = 1 ∧
    ((∀ s : Stage,
        isErr (stageResult (analysisResultsOf oneFailAgents "project".data) s) = false →
        stageHeading s ∈ synthSections (analysisResultsOf oneFailAgents "project".data)) ∧
      (∀ s : Stage,
        isErr (stageResult (analysisResultsOf oneFailAgents "project".data) s) = true →
        stageHeading s ∉ synthSections (analysisResultsOf oneFailAgents "project".data)) ∧
      (confidence_scores (analysisResultsOf oneFailAgents "project".data)).map
          Prod.fst = agentNames ∧
      (∀ s : Stage,
        isErr (stageResult (analysisResultsOf oneFailAgents "project".data) s) = true →
        (stageName s, (0 : ℚ)) ∈
          confidence_scores (analysisResultsOf oneFailAgents "project".data)) ∧
      analyze_complex_project oneFailAgents "project".data =
        { roadmap := joinWith "\n".data
            (synthSections (analysisResultsOf oneFailAgents "project".data))
          metadata := .coordinator agentNames
            (confidence_scores (analysisResultsOf oneFailAgents "project".data)) }) :=
  ⟨by decide, c1_synthesis_partial_failure oneFailAgents "project".data (by decide)⟩

/-! ### C2: refinement-loop step history -/

/-- C2 (amended): a successful refinement-loop run appends exactly the four
step records draft/critique/revise/finalize with iteration numbers 1,1,2,3
to the orchestrator's history (append-only), and that whole instance-level
history — including records of earlier runs on the same orchestrator — is
what the response metadata carries; when the history started empty this is
exactly 4 records.  Conversely a run can only return a roadmap if all four
stages succeeded: any stage failure yields only an error. -/
theorem c2_workflow_history (A : LLMAgents) (st0 : OrchState) (pi : PreparedWF) :
    (∀ d f r fin,
      A.generate_initial_roadmap (strategistInput pi) = .ok d →
      A.analyze_roadmap d 1 = .ok f →
      A.refine_roadmap d f = .ok r →
      A.final_evaluation r = .ok fin →
      execute_workflow A st0 pi =
        (.ok { roadmap := fin
               metadata := .workflow 3 (st0.workflow_history ++
                 [⟨1, "strategist_initial".data, d.length, stepPreview d⟩,
                  ⟨1, "refiner_feedback_1".data, f.length, stepPreview f⟩,
                  ⟨2, "strategist_refined".data, r.length, stepPreview r⟩,
                  ⟨3, "refiner_final".data, fin.length, stepPreview fin⟩]) },
         ⟨3, st0.workflow_history ++
           [⟨1, "strategist_initial".data, d.length, stepPreview d⟩,
            ⟨1, "refiner_feedback_1".data, f.length, stepPreview f⟩,
            ⟨2, "strategist_refined".data, r.length, stepPreview r⟩,
            ⟨3, "refiner_final".data, fin.length, stepPreview fin⟩]⟩)) ∧
    (∀ res st1, execute_workflow A st0 pi = (.ok res, st1) →
      ∃ d f r fin,
        A.generate_initial_roadmap (strategistInput pi) = .ok d ∧
        A.analyze_roadmap d 1 = .ok f ∧
        A.refine_roadmap d f = .ok r ∧
        A.final_evaluation r = .ok fin ∧ res.roadmap = fin) := by
  constructor
  · intro d f r fin h1 h2 h3 h4
    simp [execute_workflow, h1, h2, h3, h4, log_workflow_step]
  · intro res st1 h
    unfold execute_workflow at h
    dsimp only [] at h
    split at h
    · simp at h
    · rename_i d hg
      split at h
      · simp at h
      · rename_i f ha
        split at h
        · simp at h
        · rename_i r hr
          split at h
          · simp at h
          · rename_i fin hf
            simp only [Prod.mk.injEq, Except.ok.injEq] at h
            exact ⟨d, f, r, fin, hg, ha, hr, hf, by rw [← h.1]⟩

/-- History length carried by a metadata value (workflow variant). -/
def metaHistoryLength : Metadata → Nat
  | .workflow _ h => h.length
  | .coordinator _ _ => 0

/-- C2 counterexample: running two successful refinement loops on the same
orchestrator makes the second response's metadata carry 8 step records — the
first request's records appear in the second request's response metadata, so
the history is instance-scoped, not request-scoped, and "exactly 4 records
per successful run" fails from the second run on. -/
theorem c2_counterexample :
    (execute_workflow okAgents
        (execute_workflow okAgents ⟨0, []⟩ (.direct "hi".data)).2
        (.direct "hi".data)).1.map (fun res => metaHistoryLength res.metadata) =
      .ok 8 := rfl

theorem c2_witness :
    (okAgents.generate_initial_roadmap (strategistInput (.direct "hi".data)) =
        .ok "draft".data ∧
      okAgents.analyze_roadmap "draft".data 1 = .ok "feedback".data ∧
      okAgents.refine_roadmap "draft".data "feedback".data = .ok "revised".data ∧
      okAgents.final_evaluation "revised".data = .ok "final".data) ∧
    execute_workflow okAgents ⟨0, []⟩ (.direct "hi".data) =
      (.ok { roadmap := "final".data
             metadata := .workflow 3 (([] : List StepRecord) ++
               [⟨1, "strategist_initial".data, "draft".data.length,
                  stepPreview "draft".data⟩,
                ⟨1, "refiner_feedback_1".data, "feedback".data.length,
                  stepPreview "feedback".data⟩,
                ⟨2, "strategist_refined".data, "revised".data.length,
                  stepPreview "revised".data⟩,
                ⟨3, "refiner_final".data, "final".data.length,
                  stepPreview "final".data⟩]) },
       ⟨3, ([] : List StepRecord) ++
         [⟨1, "strategist_initial".data, "draft".data.length,
            stepPreview "draft".data⟩,
          ⟨1, "refiner_feedback_1".data, "feedback".data.length,
            stepPreview "feedback".data⟩,
          ⟨2, "strategist_refined".data, "revised".data.length,
            stepPreview "revised".data⟩,
          ⟨3, "refiner_final".data, "final".data.length,
            stepPreview "final".data⟩]⟩) :=
  ⟨⟨rfl, rfl, rfl, rfl⟩,
   (c2_workflow_history okAgents ⟨0, []⟩ (.direct "hi".data)).1
     "draft".data "feedback".data "revised".data "final".data rfl rfl rfl rfl⟩
